import Mathlib

/-!
Verification of the iteration controller and result-classification pipeline
of `src/learning/bootstrap.py` (the conjecture-prove bootstrapping loop).

The Python source is shallowly embedded: pure computations become Lean
functions over `List`/`ℚ`/`String`; the worker pool is modelled as an oracle
function from a statement to the `StudentResult` the worker would return for
it; code that can raise a Python exception (missing checkpoint file,
`np.percentile` on an empty sample, reading an unbound loop variable) is
`Option`-valued, `none` marking the exception.
-/

namespace Bootstrap

/-- Hindsight example produced during search (`hindsight.HindsightExample`):
a relabeled sub-goal with its training strings and search log-probability.
Floats are modelled as rationals. -/
structure HindsightExample where
  goal : String
  examples : List String
  logprob : ℚ
deriving DecidableEq, Repr

/-- Outcome of one proof-search job (`worker.StudentResult`). The `error`
field models the worker's error string; the empty string is Python-falsy and
means "no error". -/
structure StudentResult where
  problem : String
  success : Bool
  logprob : ℚ
  proof : String
  extracted_examples : List String
  hindsight_examples : List HindsightExample
  iterations : Nat
  error : String
deriving DecidableEq, Repr

/-- Constant `FAIL = "fail"` from the source. -/
def FAIL : String := "fail"

/-- Result-collection loop of `prove_conjectures` (lines 255-264): walk the
task results in submission order, log-and-drop any result whose `error`
field is truthy (non-empty), keep the rest. -/
def collectResults : List StudentResult → List StudentResult
  | [] => []
  | r :: rs => if r.error ≠ "" then collectResults rs else r :: collectResults rs

/-- Embedding of `prove_conjectures` (lines 236-264): one task is submitted
per conjecture against a frozen agent dump; `w` is the worker oracle giving
the `StudentResult` each statement's job reports; results are collected in
submission order with errored jobs dropped. -/
def prove_conjectures (w : String → StudentResult) (conjectures : List String) :
    List StudentResult :=
  collectResults (conjectures.map w)

/-- Embedding of `get_log_probs` (lines 267-275): the log-probabilities of
the successful results, in order. -/
def get_log_probs : List StudentResult → List ℚ
  | [] => []
  | r :: rs => if r.success then r.logprob :: get_log_probs rs else get_log_probs rs

/-- Embedding of line 131: `ratio_proven = len(success_logprobs)/len(conjectures)`,
where `success_logprobs` is computed from the dispatcher's returned results
and the denominator is the submitted conjecture list. -/
def ratio_proven (w : String → StudentResult) (conjectures : List String) : ℚ :=
  ((get_log_probs (prove_conjectures w conjectures)).length : ℚ) /
    ((conjectures.length : ℚ))

/-- Embedding of `get_val_loss` (lines 222-233): re-prove the final goals
with the evaluation budget (the eval worker oracle `w`), average the success
log-probabilities (or use the `-10` fallback when there is none), and return
the negated mean together with the per-result search-step counts. -/
def get_val_loss (w : String → StudentResult) (goals : List String) : ℚ × List Nat :=
  let srf := prove_conjectures w goals
  let slf := get_log_probs srf
  let m : ℚ := if slf.length > 0 then slf.sum / (slf.length : ℚ) else -10
  (-m, srf.map (fun s => s.iterations))

lemma collectResults_eq_filter (l : List StudentResult) :
    collectResults l = l.filter (fun r => r.error == "") := by
  induction l with
  | nil => rfl
  | cons r rs ih =>
    by_cases h : r.error = ""
    · simp [collectResults, h, ih]
    · simp [collectResults, h, ih]

lemma get_log_probs_eq_filter_map (l : List StudentResult) :
    get_log_probs l = (l.filter (fun r => r.success)).map (fun r => r.logprob) := by
  induction l with
  | nil => rfl
  | cons r rs ih =>
    by_cases h : r.success
    · simp [get_log_probs, h, ih]
    · simp [get_log_probs, h, ih]

lemma get_log_probs_nil_iff (l : List StudentResult) :
    get_log_probs l = [] ↔ ∀ r ∈ l, r.success = false := by
  induction l with
  | nil => simp [get_log_probs]
  | cons r rs ih =>
    by_cases h : r.success
    · simp [get_log_probs, h, ih]
    · simp [get_log_probs, h, ih]

/-- C4: the dispatcher returns exactly the submission-ordered subsequence of
non-errored results, and never more results than submitted conjectures. -/
theorem prove_conjectures_nonerrored_in_order
    (w : String → StudentResult) (conjectures : List String) :
    prove_conjectures w conjectures
        = (conjectures.map w).filter (fun r => r.error == "")
      ∧ (prove_conjectures w conjectures).Sublist (conjectures.map w)
      ∧ (prove_conjectures w conjectures).length ≤ conjectures.length := by
  refine ⟨collectResults_eq_filter _, ?_, ?_⟩
  · rw [prove_conjectures, collectResults_eq_filter]
    exact List.filter_sublist _
  · calc (prove_conjectures w conjectures).length
        ≤ (conjectures.map w).length := by
          rw [prove_conjectures, collectResults_eq_filter]
          exact (List.filter_sublist _).length_le
    _ = conjectures.length := List.length_map _ _

/-- C3: `ratio_proven` equals the number of successful (non-errored) results
divided by the number of conjectures originally submitted — errored jobs
still count against the denominator. -/
theorem ratio_proven_original_denominator
    (w : String → StudentResult) (conjectures : List String)
    (h : conjectures ≠ []) :
    ratio_proven w conjectures
      = (((conjectures.map w).filter (fun r => r.success && r.error == "")).length : ℚ)
        / ((conjectures.length : ℚ)) := by
  have hlen : (get_log_probs (prove_conjectures w conjectures)).length
      = ((conjectures.map w).filter (fun r => r.success && r.error == "")).length := by
    rw [prove_conjectures, collectResults_eq_filter, get_log_probs_eq_filter_map,
      List.length_map, List.filter_filter]
  rw [ratio_proven, hlen]

/-- Concrete instance for C3: three conjectures, two successes and one
worker error; the ratio divides by the original count of three. -/
def wC3 : String → StudentResult := fun s =>
  if s = "c1" then ⟨"c1", true, -1, "p1", [], [], 3, ""⟩
  else if s = "c2" then ⟨"c2", true, -2, "p2", [], [], 4, ""⟩
  else ⟨"c3", false, 0, "", [], [], 5, "worker died"⟩

theorem ratio_proven_original_denominator_witness :
    (["c1", "c2", "c3"] ≠ ([] : List String))
      ∧ ratio_proven wC3 ["c1", "c2", "c3"]
          = (((["c1", "c2", "c3"].map wC3).filter
                (fun r => r.success && r.error == "")).length : ℚ)
            / (((["c1", "c2", "c3"] : List String).length : ℚ)) :=
  ⟨by decide, ratio_proven_original_denominator wC3 ["c1", "c2", "c3"] (by decide)⟩

/-- C8: the validation loss is the negated arithmetic mean of the success
log-probabilities of the (non-errored) evaluation results when at least one
goal is solved, and the fixed sentinel `10` when none is solved. -/
theorem get_val_loss_mean_or_sentinel (w : String → StudentResult) (goals : List String) :
    ((∃ r ∈ prove_conjectures w goals, r.success = true) →
      (get_val_loss w goals).1
        = -((get_log_probs (prove_conjectures w goals)).sum /
            ((get_log_probs (prove_conjectures w goals)).length : ℚ)))
    ∧ ((∀ r ∈ prove_conjectures w goals, r.success = false) →
      (get_val_loss w goals).1 = 10) := by
  constructor
  · rintro ⟨r, hr, hs⟩
    have hne : get_log_probs (prove_conjectures w goals) ≠ [] := by
      intro hnil
      have := (get_log_probs_nil_iff _).mp hnil r hr
      rw [hs] at this
      exact Bool.noConfusion this
    have hpos : 0 < (get_log_probs (prove_conjectures w goals)).length :=
      List.length_pos.mpr hne
    simp only [get_val_loss, hpos, if_pos]
  · intro hall
    have hnil : get_log_probs (prove_conjectures w goals) = [] :=
      (get_log_probs_nil_iff _).mpr hall
    simp [get_val_loss, hnil]

/-- Concrete instance for C8: one solved goal with log-probability `-2`
gives validation loss `2`. -/
def wC8 : String → StudentResult := fun s => ⟨s, true, -2, "prf", [], [], 7, ""⟩

theorem get_val_loss_mean_or_sentinel_witness :
    (∃ r ∈ prove_conjectures wC8 ["g"], r.success = true)
      ∧ (get_val_loss wC8 ["g"]).1
          = -((get_log_probs (prove_conjectures wC8 ["g"])).sum /
              ((get_log_probs (prove_conjectures wC8 ["g"])).length : ℚ)) := by
  have hx : ∃ r ∈ prove_conjectures wC8 ["g"], r.success = true := by
    refine ⟨wC8 "g", ?_, rfl⟩
    decide
  exact ⟨hx, (get_val_loss_mean_or_sentinel wC8 ["g"]).1 hx⟩

/-- Ascending comparison of difficulty buckets by their percentile value,
the sort key `kv[1]` of lines 65-67. -/
def bucketLE (a b : String × ℚ) : Prop := a.2 ≤ b.2

instance : DecidableRel bucketLE := fun a b => inferInstanceAs (Decidable (a.2 ≤ b.2))

instance : IsTotal (String × ℚ) bucketLE := ⟨fun a b => le_total a.2 b.2⟩

instance : IsTrans (String × ℚ) bucketLE := ⟨fun _ _ _ h h' => le_trans h h'⟩

/-- Embedding of lines 65-67: the configured difficulty buckets (name,
percentile pairs) sorted ascending by percentile value. -/
def difficultyBucketsSorted (buckets : List (String × ℚ)) : List (String × ℚ) :=
  List.insertionSort bucketLE buckets

/-- Embedding of `np.percentile(xs, p)` with the default linear
interpolation: `none` models the exception numpy raises on an empty sample
or an out-of-range percentile. -/
def npPercentile (xs : List ℚ) (p : ℚ) : Option ℚ :=
  if xs.isEmpty then none
  else if p < 0 ∨ 100 < p then none
  else
    let s := List.insertionSort (· ≤ ·) xs
    let n := s.length
    let pos : ℚ := p / 100 * ((n : ℚ) - 1)
    let lo : ℕ := (Rat.floor pos).toNat
    let g : ℚ := pos - ((Rat.floor pos : ℤ) : ℚ)
    let a := s.getD lo 0
    let b := s.getD (min (lo + 1) (n - 1)) 0
    some (a + g * (b - a))

/-- Embedding of the list comprehension in lines 171-172: one percentile per
(sorted) bucket over the hindsight log-probability sample; the first numpy
exception aborts the whole computation. -/
def computeThresholds (hlps : List ℚ) : List (String × ℚ) → Option (List ℚ)
  | [] => some []
  | b :: bs =>
    match npPercentile hlps b.2 with
    | none => none
    | some t =>
      match computeThresholds hlps bs with
      | none => none
      | some ts => some (t :: ts)

/-- Embedding of lines 171-174: compute the bucket thresholds, keep the
log-probabilities at least `thresholds[0]` (the lowest-percentile bucket's
threshold; `none` models the IndexError on an empty threshold list), and
take their mean with an explicit `0` fallback for an empty filtered set. -/
def hindsightMeanHard (hlps : List ℚ) (sortedBuckets : List (String × ℚ)) : Option ℚ :=
  match computeThresholds hlps sortedBuckets with
  | none => none
  | some thresholds =>
    match thresholds.head? with
    | none => none
    | some t0 =>
      let hard := hlps.filter (fun lp => decide (t0 ≤ lp))
      some (if hard.isEmpty then 0 else hard.sum / (hard.length : ℚ))

/-- Final value of `mean_hard_sol_log_prob` for one iteration: line 138
computes the success-based mean (with `0` fallback), and lines 158-174
overwrite it with the hindsight-based recomputation exactly when hindsight
training is enabled. -/
def meanHardSolLogProb (hindsightEnabled : Bool) (slps hlps : List ℚ)
    (buckets : List (String × ℚ)) : Option ℚ :=
  if hindsightEnabled then hindsightMeanHard hlps (difficultyBucketsSorted buckets)
  else some (if slps.isEmpty then 0 else slps.sum / (slps.length : ℚ))

/-- Hindsight-example collection of lines 161-169 over ONE result's
`hindsight_examples`, with the freshly reset `seen_hindsight_goals` set:
an example whose goal was already seen is skipped; otherwise the
`Conj:(hard)`-tagged elaboration of `student_result.problem` (note: the
result's problem, through `el`, not the example's goal) and the example's
training strings are appended and its log-probability recorded. -/
def collectHindsightGo (el : String → String) (freeze : Bool) (problem : String) :
    List HindsightExample → List String → List String × List ℚ
  | [], _ => ([], [])
  | h :: hs, seen =>
    if h.goal ∈ seen then collectHindsightGo el freeze problem hs seen
    else
      let rest := collectHindsightGo el freeze problem hs (h.goal :: seen)
      ((if freeze then [] else ["Conj:(hard) " ++ el problem]) ++ h.examples ++ rest.1,
        h.logprob :: rest.2)

/-- Hindsight collection applied to one `StudentResult`, as the source's
`for h in student_result.hindsight_examples` loop does. -/
def collectHindsight (el : String → String) (freeze : Bool) (sr : StudentResult) :
    List String × List ℚ :=
  collectHindsightGo el freeze sr.problem sr.hindsight_examples []

/-- Value of the Python variable `student_result` when line 161 runs: the
classification loop of lines 141-156 leaves it bound to the LAST element of
`student_results`; if that list was empty the variable keeps its value from
the previous round (`prev`), and `none` models the NameError raised when it
was never bound at all. -/
def roundHindsightInput (srs : List StudentResult) (prev : Option StudentResult) :
    Option StudentResult :=
  match srs.getLast? with
  | some r => some r
  | none => prev

/-- The hindsight collection step of lines 158-169 as the source executes
it: the loop ranges over the hindsight examples of the single stale
`student_result`, not over each result of the batch. -/
def roundHindsightCollect (el : String → String) (freeze : Bool)
    (srs : List StudentResult) (prev : Option StudentResult) :
    Option (List String × List ℚ) :=
  (roundHindsightInput srs prev).map (collectHindsight el freeze)

/-- First result of the C2 failing batch: hindsight example for goal `g`
with training string `a1` and log-probability `-1`. -/
def srC2a : StudentResult := ⟨"p1", false, 0, "", [], [⟨"g", ["a1"], -1⟩], 2, ""⟩

/-- Second result of the C2 failing batch: hindsight example for the same
goal `g` with training string `a2` and log-probability `-3`. -/
def srC2b : StudentResult := ⟨"p2", false, 0, "", [], [⟨"g", ["a2"], -3⟩], 2, ""⟩

/-- C2 (code evaluated at the failing input): for the two-result batch whose
hindsight examples share goal `g`, the collection step contributes only the
last result's strings and log-probability; the first-encountered example
(training string `a1`, log-probability `-1`) is never visited, contradicting
the claimed batch-wide first-encountered deduplication. -/
theorem hindsight_collection_sees_only_last_result :
    roundHindsightCollect id false [srC2a, srC2b] none
        = some (["Conj:(hard) p2", "a2"], [-3])
      ∧ "a1" ∉ (["Conj:(hard) p2", "a2"] : List String)
      ∧ (-1 : ℚ) ∉ ([-3] : List ℚ) := by
  refine ⟨by decide, by decide, ?_⟩
  intro hmem
  rcases List.mem_singleton.mp hmem with h
  exact absurd h (by norm_num)

lemma npPercentile_nil (p : ℚ) : npPercentile [] p = none := by
  simp [npPercentile]

lemma npPercentile_isSome (xs : List ℚ) (p : ℚ) (hx : xs ≠ [])
    (h0 : 0 ≤ p) (h100 : p ≤ 100) : ∃ t, npPercentile xs p = some t := by
  have h2 : ¬ (p < 0 ∨ 100 < p) := by push_neg; exact ⟨h0, h100⟩
  rw [npPercentile, if_neg (by simp [List.isEmpty_iff, hx]), if_neg h2]
  exact ⟨_, rfl⟩

lemma hindsightMeanHard_nil (bs : List (String × ℚ)) :
    hindsightMeanHard [] bs = none := by
  cases bs with
  | nil => rfl
  | cons b bs' =>
    simp [hindsightMeanHard, computeThresholds, npPercentile_nil]

lemma computeThresholds_isSome (hlps : List ℚ) (hh : hlps ≠ [])
    (l : List (String × ℚ)) (hr : ∀ b ∈ l, 0 ≤ b.2 ∧ b.2 ≤ 100) :
    ∃ ts, computeThresholds hlps l = some ts := by
  induction l with
  | nil => exact ⟨[], rfl⟩
  | cons b bs ih =>
    obtain ⟨t, ht⟩ := npPercentile_isSome hlps b.2 hh
      (hr b (List.mem_cons_self b bs)).1 (hr b (List.mem_cons_self b bs)).2
    obtain ⟨ts, hts⟩ := ih (fun x hx => hr x (List.mem_cons_of_mem b hx))
    exact ⟨t :: ts, by rw [computeThresholds, ht, hts]⟩

/-- C10: the threshold computation has no empty-sample fallback — with an
empty collected hindsight log-probability list the iteration’s hindsight
step raises (models the numpy/IndexError), so it completes without error
only when at least one hindsight log-probability was collected. -/
theorem hindsight_thresholds_need_nonempty_sample
    (hlps : List ℚ) (buckets : List (String × ℚ)) :
    ((hindsightMeanHard hlps (difficultyBucketsSorted buckets)).isSome = true → hlps ≠ [])
    ∧ (hlps = [] → hindsightMeanHard hlps (difficultyBucketsSorted buckets) = none) := by
  constructor
  · intro hs hnil
    rw [hnil, hindsightMeanHard_nil] at hs
    exact Bool.noConfusion hs
  · intro hnil
    rw [hnil, hindsightMeanHard_nil]

theorem hindsight_thresholds_need_nonempty_sample_witness :
    (hindsightMeanHard [-1] (difficultyBucketsSorted [("hard", 50)])).isSome = true
      ∧ ([-1] : List ℚ) ≠ [] :=
  ⟨by decide,
    (hindsight_thresholds_need_nonempty_sample [-1] [("hard", 50)]).1 (by decide)⟩

/-- C5: when hindsight training is enabled and the collected sample is
non-empty, `mean_hard_sol_log_prob` is recomputed as the mean of the
collected hindsight log-probabilities that are at least the threshold of the
lowest-percentile bucket (head of the ascending-sorted bucket list), with a
`0` fallback for an empty filtered set, and the recomputed value does not
depend on the success log-probabilities it supersedes. -/
theorem hindsight_mean_recomputed_from_lowest_bucket
    (slps slps' hlps : List ℚ) (buckets : List (String × ℚ))
    (hh : hlps ≠ []) (hb : buckets ≠ [])
    (hr : ∀ b ∈ buckets, 0 ≤ b.2 ∧ b.2 ≤ 100) :
    ∃ b0 rest t0,
      difficultyBucketsSorted buckets = b0 :: rest
      ∧ b0 ∈ buckets
      ∧ (∀ b ∈ buckets, b0.2 ≤ b.2)
      ∧ npPercentile hlps b0.2 = some t0
      ∧ meanHardSolLogProb true slps hlps buckets
          = some (if (hlps.filter (fun lp => decide (t0 ≤ lp))).isEmpty then 0
                  else (hlps.filter (fun lp => decide (t0 ≤ lp))).sum /
                    (((hlps.filter (fun lp => decide (t0 ≤ lp))).length : ℚ)))
      ∧ meanHardSolLogProb true slps' hlps buckets
          = meanHardSolLogProb true slps hlps buckets := by
  have hperm : List.Perm (difficultyBucketsSorted buckets) buckets :=
    List.perm_insertionSort bucketLE buckets
  have hsorted : List.Sorted bucketLE (difficultyBucketsSorted buckets) :=
    List.sorted_insertionSort bucketLE buckets
  obtain ⟨b0, rest, heq⟩ : ∃ b0 rest, difficultyBucketsSorted buckets = b0 :: rest := by
    cases hcase : difficultyBucketsSorted buckets with
    | nil =>
      rw [hcase] at hperm
      exact absurd (List.Perm.nil_eq hperm).symm hb
    | cons x xs => exact ⟨x, xs, rfl⟩
  rw [heq] at hperm hsorted
  have hb0mem : b0 ∈ buckets := hperm.mem_iff.mp (List.mem_cons_self b0 rest)
  have hmin : ∀ b ∈ buckets, b0.2 ≤ b.2 := by
    intro b hbmem
    rcases List.mem_cons.mp (hperm.mem_iff.mpr hbmem) with h | h
    · rw [h]
    · exact (List.sorted_cons.mp hsorted).1 b h
  obtain ⟨t0, ht0⟩ := npPercentile_isSome hlps b0.2 hh (hr b0 hb0mem).1 (hr b0 hb0mem).2
  obtain ⟨ts, hts⟩ := computeThresholds_isSome hlps hh rest
    (fun x hx => hr x (hperm.mem_iff.mp (List.mem_cons_of_mem b0 hx)))
  refine ⟨b0, rest, t0, heq, hb0mem, hmin, ht0, ?_, rfl⟩
  rw [meanHardSolLogProb, if_pos rfl, heq, hindsightMeanHard, computeThresholds, ht0, hts]
  rfl

theorem hindsight_mean_recomputed_from_lowest_bucket_witness :
    (([-1] : List ℚ) ≠ [] ∧ ([("hard", (50 : ℚ))] : List (String × ℚ)) ≠ [])
      ∧ ∃ b0 rest t0,
          difficultyBucketsSorted [("hard", (50 : ℚ))] = b0 :: rest
          ∧ b0 ∈ [("hard", (50 : ℚ))]
          ∧ (∀ b ∈ [("hard", (50 : ℚ))], b0.2 ≤ b.2)
          ∧ npPercentile [-1] b0.2 = some t0
          ∧ meanHardSolLogProb true [] [-1] [("hard", (50 : ℚ))]
              = some (if (([-1] : List ℚ).filter (fun lp => decide (t0 ≤ lp))).isEmpty then 0
                      else (([-1] : List ℚ).filter (fun lp => decide (t0 ≤ lp))).sum /
                        (((([-1] : List ℚ).filter (fun lp => decide (t0 ≤ lp))).length : ℚ)))
          ∧ meanHardSolLogProb true [7] [-1] [("hard", (50 : ℚ))]
              = meanHardSolLogProb true [] [-1] [("hard", (50 : ℚ))] :=
  ⟨⟨by decide, by decide⟩,
    hindsight_mean_recomputed_from_lowest_bucket [] [7] [-1] [("hard", (50 : ℚ))]
      (by decide) (by decide) (by intro b hbmem; simp at hbmem; rw [hbmem]; constructor <;> norm_num)⟩

/-- Configuration slice of `teacher_loop` that drives control flow. -/
structure LoopCfg where
  mctsOnly : Bool
  earlyExit : Bool
  hindsightEnabled : Bool
  freezeConjecturer : Bool
  checkpointPerIteration : Bool
  maxMctsNodes : Nat
  buckets : List (String × ℚ)
deriving DecidableEq

/-- External collaborators of the loop: the held-out goal list, the
normal-budget and evaluation-budget worker oracles (taking the frozen agent
snapshot, modelled as a `Nat`), the opaque training step, and the
derivation engine's statement elaboration `d.elaborate`. -/
structure LoopEnv where
  finalGoalsFormatted : List String
  worker : Nat → String → StudentResult
  evalWorker : Nat → String → StudentResult
  trainFn : Nat → List String → ℚ → Nat
  el : String → String

/-- Mutable state the loop threads between iterations: the agent, the
append-only proven-conjecture and proof lists, the `student_results_final`
variable initialized to `[]` at line 76, the Python value of the stale
`student_result` loop variable, and the on-disk checkpoint state
(`model_info['iteration']` for rolling mode, the set of written `{i}.pt`
files for per-iteration mode, plus a ghost record of the last iteration
whose checkpoint write completed). -/
structure LoopState where
  agent : Nat
  provenConjectures : List String
  proofs : List String
  studentResultsFinal : List StudentResult
  lastStudentResult : Option StudentResult
  infoIteration : Option Nat
  perIterFiles : List Nat
  lastCheckpointWritten : Option Nat
deriving DecidableEq

/-- Per-result classification loop of lines 140-156: label each result
`hard`/`fail`, append the tagged elaborated conjecture (unless the
conjecturer is frozen) and the result's extracted examples, and collect the
iteration's proven conjectures and proofs. -/
structure ClassifyOut where
  examples : List String
  provenIteration : List String
  proofsIteration : List String
deriving DecidableEq

/-- Embedding of the classification loop body (lines 141-156). -/
def classifyResults (el : String → String) (freeze : Bool) :
    List StudentResult → ClassifyOut
  | [] => ⟨[], [], []⟩
  | r :: rs =>
    let rest := classifyResults el freeze rs
    let outcome := if r.success then "hard" else FAIL
    let conjEx : List String :=
      if freeze then [] else ["Conj:(" ++ outcome ++ ") " ++ el r.problem]
    ⟨conjEx ++ r.extracted_examples ++ rest.examples,
      (if r.success then [r.problem] else []) ++ rest.provenIteration,
      (if r.success then [r.proof] else []) ++ rest.proofsIteration⟩

/-- Data one iteration computes before the training call. -/
structure RoundData where
  examples : List String
  provenIteration : List String
  proofsIteration : List String
  lastSR : Option StudentResult
  ratioProven : ℚ
  meanHard : ℚ
deriving DecidableEq

/-- Dispatch, classification and hindsight stages of one iteration
(lines 109-174): prove the final goals, compute the proven ratio against the
submitted conjecture count, extend the results with the (never-written)
`student_results_final`, classify, and — when hindsight training is enabled
— run the hindsight collection over the stale `student_result` and the
threshold computation; `none` models an uncaught exception in that stage. -/
def roundData (cfg : LoopCfg) (env : LoopEnv) (st : LoopState) : Option RoundData :=
  let conjectures := env.finalGoalsFormatted
  let sr0 := prove_conjectures (env.worker st.agent) conjectures
  let successLogprobs := get_log_probs sr0
  let ratio : ℚ := ((successLogprobs.length : ℚ)) / ((conjectures.length : ℚ))
  let srs := sr0 ++ st.studentResultsFinal
  let cl := classifyResults env.el cfg.freezeConjecturer srs
  let lastSR := roundHindsightInput srs st.lastStudentResult
  let meanBase : ℚ :=
    if successLogprobs.isEmpty then 0
    else successLogprobs.sum / ((successLogprobs.length : ℚ))
  if cfg.hindsightEnabled then
    match roundHindsightCollect env.el cfg.freezeConjecturer srs st.lastStudentResult with
    | none => none
    | some hres =>
      match hindsightMeanHard hres.2 (difficultyBucketsSorted cfg.buckets) with
      | none => none
      | some m =>
        some ⟨cl.examples ++ hres.1, cl.provenIteration, cl.proofsIteration, lastSR, ratio, m⟩
  else
    some ⟨cl.examples, cl.provenIteration, cl.proofsIteration, lastSR, ratio, meanBase⟩

/-- Checkpoint write of lines 208-214: per-iteration mode writes `{i}.pt`;
rolling mode writes `model.pt` and then `model_info['iteration'] = i`
(treated as one logical unit, per the single-writer round-boundary model). -/
def writeCheckpoint (perIter : Bool) (i : Nat) (st : LoopState) : LoopState :=
  if perIter then
    { st with perIterFiles := st.perIterFiles ++ [i], lastCheckpointWritten := some i }
  else
    { st with infoIteration := some i, lastCheckpointWritten := some i }

/-- Training, validation, persistence and exit test of one iteration
(lines 180-220): train the agent, re-evaluate the final goals with the
evaluation budget, count the goals whose search-step count is within
`max_mcts_nodes`, write the checkpoint, and report whether the loop breaks
(all final goals proven AND `early_exit`). -/
def finishIteration (cfg : LoopCfg) (env : LoopEnv) (i : Nat) (st : LoopState)
    (rd : RoundData) : LoopState × Bool :=
  let agent2 := env.trainFn st.agent rd.examples rd.ratioProven
  let vl := get_val_loss (env.evalWorker agent2) env.finalGoalsFormatted
  let finalGoals := env.finalGoalsFormatted.map (fun g => "Conj:(hard) " ++ g)
  let finalGoalsProven := vl.2.filter (fun s => decide (s ≤ cfg.maxMctsNodes))
  let st1 : LoopState :=
    { st with
      agent := agent2,
      provenConjectures := st.provenConjectures ++ rd.provenIteration,
      proofs := st.proofs ++ rd.proofsIteration,
      lastStudentResult := rd.lastSR }
  let st2 := writeCheckpoint cfg.checkpointPerIteration i st1
  (st2, finalGoalsProven.length == finalGoals.length && cfg.earlyExit)

/-- One iteration of the `for i in range(start_iteration, total_iterations)`
body: `mcts_only` breaks immediately after dispatch (lines 122-126) with no
training and no checkpoint; otherwise the round runs to the checkpoint and
exit test; `none` models an uncaught exception. The `Bool` is true when the
iteration breaks out of the loop. -/
def iterStep (cfg : LoopCfg) (env : LoopEnv) (i : Nat) (st : LoopState) :
    Option (LoopState × Bool) :=
  if cfg.mctsOnly then some (st, true)
  else
    match roundData cfg env st with
    | none => none
    | some rd => some (finishIteration cfg env i st rd)

/-- How a run of the loop ended: `completed` = the range was exhausted,
`broke i` = a `break` fired in iteration `i`, `crashed i` = an uncaught
exception in iteration `i`. -/
inductive RunOutcome where
  | completed : RunOutcome
  | broke : Nat → RunOutcome
  | crashed : Nat → RunOutcome
deriving DecidableEq

/-- The loop of line 106 run from iteration `i` with `fuel` iterations left
in the range, returning the final state and how the run ended. -/
def runLoop (cfg : LoopCfg) (env : LoopEnv) : Nat → Nat → LoopState → LoopState × RunOutcome
  | _, 0, st => (st, RunOutcome.completed)
  | i, fuel + 1, st =>
    match iterStep cfg env i st with
    | none => (st, RunOutcome.crashed i)
    | some (st', true) => (st', RunOutcome.broke i)
    | some (st', false) => runLoop cfg env (i + 1) fuel st'

/-- Rolling-mode resume of lines 95-98: load `model.pt`, read `model_info`,
and start at `model_info['iteration'] + 1`. -/
def resumeRolling (st : LoopState) : Option Nat :=
  st.infoIteration.map (fun k => k + 1)

/-- Scan loop of lines 88-90: starting from `i = 0`, increment while
`{i}.pt` exists; `fuel` bounds the scan (checkpoint directories are finite),
`none` meaning the bound was too small. -/
def scanPt (ptExists : Nat → Bool) : Nat → Nat → Option Nat
  | 0, _ => none
  | fuel + 1, i => if ptExists i then scanPt ptExists fuel (i + 1) else some i

/-- Per-iteration-mode resume of lines 87-93: the scanned index becomes both
`start_iteration` and the index whose file `torch.load` opens. -/
def perIterResume (ptExists : Nat → Bool) (fuel : Nat) : Option (Nat × Nat) :=
  (scanPt ptExists fuel 0).map (fun i => (i, i))

/-- The `torch.load(f'{i}.pt')` of line 92 succeeds only if the scanned
index's file actually exists; `none` models the FileNotFoundError. -/
def perIterResumeLoad (ptExists : Nat → Bool) (fuel : Nat) : Option Nat :=
  match scanPt ptExists fuel 0 with
  | none => none
  | some i => if ptExists i then some i else none

/-- C1 (code evaluated at the failing input): with exactly `0.pt` present,
the scan stops at the first MISSING index 1, so the code sets
`start_iteration = 1` and calls `torch.load('1.pt')` on a file that does not
exist — it neither loads the largest existing checkpoint `0.pt` nor
re-executes iteration 0 as claimed (and as the source's own comment,
"Find largest iteration number such that i.pt exists", intends). -/
theorem per_iteration_resume_loads_missing_file :
    (fun j => j == 0) 0 = true
      ∧ (fun j => j == 0) 1 = false
      ∧ perIterResume (fun j => j == 0) 5 = some (1, 1)
      ∧ perIterResumeLoad (fun j => j == 0) 5 = none := by
  refine ⟨rfl, rfl, rfl, rfl⟩

lemma iterStep_studentResultsFinal (cfg : LoopCfg) (env : LoopEnv) (i : Nat)
    (st : LoopState) {p : LoopState × Bool} (h : iterStep cfg env i st = some p) :
    p.1.studentResultsFinal = st.studentResultsFinal := by
  rw [iterStep] at h
  by_cases hm : cfg.mctsOnly
  · rw [if_pos hm] at h
    cases h
    rfl
  · rw [if_neg hm] at h
    cases hrd : roundData cfg env st with
    | none => rw [hrd] at h; cases h
    | some rd =>
      rw [hrd] at h
      cases h
      by_cases hc : cfg.checkpointPerIteration <;>
        simp [finishIteration, writeCheckpoint, hc]

lemma iterStep_rolling_invariant (cfg : LoopCfg) (env : LoopEnv) (i : Nat)
    (st : LoopState) (hmode : cfg.checkpointPerIteration = false)
    (hinv : st.infoIteration = st.lastCheckpointWritten) {p : LoopState × Bool}
    (h : iterStep cfg env i st = some p) :
    p.1.infoIteration = p.1.lastCheckpointWritten := by
  rw [iterStep] at h
  by_cases hm : cfg.mctsOnly
  · rw [if_pos hm] at h
    cases h
    exact hinv
  · rw [if_neg hm] at h
    cases hrd : roundData cfg env st with
    | none => rw [hrd] at h; cases h
    | some rd =>
      rw [hrd] at h
      cases h
      simp [finishIteration, writeCheckpoint, hmode]

lemma runLoop_rolling_invariant (cfg : LoopCfg) (env : LoopEnv)
    (hmode : cfg.checkpointPerIteration = false) (start fuel : Nat) (st₀ : LoopState)
    (hinv : st₀.infoIteration = st₀.lastCheckpointWritten) :
    (runLoop cfg env start fuel st₀).1.infoIteration
      = (runLoop cfg env start fuel st₀).1.lastCheckpointWritten := by
  induction fuel generalizing start st₀ with
  | zero => exact hinv
  | succ fuel ih =>
    rw [runLoop]
    cases hstep : iterStep cfg env start st₀ with
    | none => exact hinv
    | some p =>
      have hp := iterStep_rolling_invariant cfg env start st₀ hmode hinv hstep
      obtain ⟨st', b⟩ := p
      cases b with
      | true => exact hp
      | false => exact ih (start + 1) st' hp

/-- C6: in rolling checkpoint mode the persisted `model_info` iteration
always equals the last iteration whose checkpoint write completed, and a
fresh process resumed from that directory starts at that iteration plus
one. -/
theorem rolling_info_matches_last_checkpoint (cfg : LoopCfg) (env : LoopEnv)
    (hmode : cfg.checkpointPerIteration = false) (start fuel : Nat) (st₀ : LoopState)
    (hinv : st₀.infoIteration = st₀.lastCheckpointWritten) :
    (runLoop cfg env start fuel st₀).1.infoIteration
        = (runLoop cfg env start fuel st₀).1.lastCheckpointWritten
      ∧ ∀ k, (runLoop cfg env start fuel st₀).1.lastCheckpointWritten = some k →
          resumeRolling (runLoop cfg env start fuel st₀).1 = some (k + 1) := by
  have hmain := runLoop_rolling_invariant cfg env hmode start fuel st₀ hinv
  refine ⟨hmain, fun k hk => ?_⟩
  rw [resumeRolling, hmain, hk]
  rfl

lemma runLoop_studentResultsFinal (cfg : LoopCfg) (env : LoopEnv)
    (start fuel : Nat) (st₀ : LoopState) (h : st₀.studentResultsFinal = []) :
    (runLoop cfg env start fuel st₀).1.studentResultsFinal = [] := by
  induction fuel generalizing start st₀ with
  | zero => exact h
  | succ fuel ih =>
    rw [runLoop]
    cases hstep : iterStep cfg env start st₀ with
    | none => exact h
    | some p =>
      have hp := iterStep_studentResultsFinal cfg env start st₀ hstep
      obtain ⟨st', b⟩ := p
      cases b with
      | true => exact hp.trans h
      | false => exact ih (start + 1) st' (hp.trans h)

/-- C9: `student_results_final` is the empty list in every reachable loop
state (`get_val_loss` only binds an unrelated local of the same name and the
loop never assigns it), so the `student_results.extend(student_results_final)`
of line 136 is a no-op and classification operates on exactly the results
the dispatcher returned for the round's conjectures. -/
theorem student_results_final_stays_empty (cfg : LoopCfg) (env : LoopEnv)
    (start fuel : Nat) (st₀ : LoopState) (h : st₀.studentResultsFinal = []) :
    (runLoop cfg env start fuel st₀).1.studentResultsFinal = []
      ∧ ∀ st : LoopState, st.studentResultsFinal = [] →
          prove_conjectures (env.worker st.agent) env.finalGoalsFormatted
              ++ st.studentResultsFinal
            = prove_conjectures (env.worker st.agent) env.finalGoalsFormatted := by
  refine ⟨runLoop_studentResultsFinal cfg env start fuel st₀ h, ?_⟩
  intro st hst
  rw [hst, List.append_nil]

lemma finishIteration_breaks (cfg : LoopCfg) (env : LoopEnv) (i : Nat)
    (st : LoopState) (rd : RoundData) (he : cfg.earlyExit = true)
    (hlen : ∀ a : Nat,
      ((get_val_loss (env.evalWorker a) env.finalGoalsFormatted).2).length
        = env.finalGoalsFormatted.length)
    (hle : ∀ a : Nat, ∀ s ∈ (get_val_loss (env.evalWorker a) env.finalGoalsFormatted).2,
      s ≤ cfg.maxMctsNodes) :
    (finishIteration cfg env i st rd).2 = true := by
  simp only [finishIteration]
  have hf : ((get_val_loss (env.evalWorker (env.trainFn st.agent rd.examples rd.ratioProven))
        env.finalGoalsFormatted).2).filter (fun s => decide (s ≤ cfg.maxMctsNodes))
      = (get_val_loss (env.evalWorker (env.trainFn st.agent rd.examples rd.ratioProven))
        env.finalGoalsFormatted).2 := by
    rw [List.filter_eq_self]
    intro s hs
    exact decide_eq_true (hle _ s hs)
  rw [hf, hlen, List.length_map, he]
  simp

/-- C7: with `early_exit` enabled, `mcts_only` off, and every held-out
goal's validation search reporting a step count within `max_mcts_nodes`
(each goal produces a count — no eval worker errors — and each count is at
most the budget, the criterion of line 194 for counting a goal solved), the
loop breaks at the end of the first executed iteration, no matter how many
further iterations the range would have allowed. -/
theorem early_exit_breaks_before_total (cfg : LoopCfg) (env : LoopEnv)
    (start fuel : Nat) (st₀ : LoopState)
    (he : cfg.earlyExit = true) (hm : cfg.mctsOnly = false)
    (hlen : ∀ a : Nat,
      ((get_val_loss (env.evalWorker a) env.finalGoalsFormatted).2).length
        = env.finalGoalsFormatted.length)
    (hle : ∀ a : Nat, ∀ s ∈ (get_val_loss (env.evalWorker a) env.finalGoalsFormatted).2,
      s ≤ cfg.maxMctsNodes)
    (hnc : iterStep cfg env start st₀ ≠ none) :
    (runLoop cfg env start (fuel + 1) st₀).2 = RunOutcome.broke start := by
  rw [runLoop]
  cases hstep : iterStep cfg env start st₀ with
  | none => exact absurd hstep hnc
  | some p =>
    have hbrk : p.2 = true := by
      rw [iterStep, if_neg (by rw [hm]; exact Bool.false_ne_true ∘ id)] at hstep
      cases hrd : roundData cfg env st₀ with
      | none => rw [hrd] at hstep; cases hstep
      | some rd =>
        rw [hrd] at hstep
        cases hstep
        exact finishIteration_breaks cfg env start st₀ rd he hlen hle
    obtain ⟨st', b⟩ := p
    cases hbrk
    rfl

/-- Worker oracle for the loop witnesses: every statement is proven with
log-probability `-2` in one search step and no error. -/
def wOk : String → StudentResult := fun s => ⟨s, true, -2, "prf", [], [], 1, ""⟩

/-- Environment for the loop witnesses: one held-out goal, agent-independent
workers, a training step that keeps the agent, identity elaboration. -/
def envA : LoopEnv := ⟨["g"], fun _ s => wOk s, fun _ s => wOk s, fun a _ _ => a, id⟩

/-- Rolling-mode configuration with a node budget of `0`, so the single goal
(solved in 1 step) never counts as proven and the loop never breaks. -/
def cfgRolling : LoopCfg := ⟨false, false, false, false, false, 0, []⟩

/-- Early-exit configuration with a node budget of `5`, so the goal's 1-step
solution counts as proven in every iteration. -/
def cfgEarly : LoopCfg := ⟨false, true, false, false, false, 5, []⟩

/-- Fresh-run initial loop state. -/
def initState : LoopState := ⟨0, [], [], [], none, none, [], none⟩

theorem rolling_info_matches_last_checkpoint_witness :
    cfgRolling.checkpointPerIteration = false
      ∧ initState.infoIteration = initState.lastCheckpointWritten
      ∧ (runLoop cfgRolling envA 0 2 initState).1.lastCheckpointWritten = some 1
      ∧ resumeRolling (runLoop cfgRolling envA 0 2 initState).1 = some 2 :=
  ⟨rfl, rfl, by decide,
    (rolling_info_matches_last_checkpoint cfgRolling envA rfl 0 2 initState rfl).2
      1 (by decide)⟩

theorem student_results_final_stays_empty_witness :
    initState.studentResultsFinal = []
      ∧ (runLoop cfgRolling envA 0 2 initState).1.studentResultsFinal = []
      ∧ prove_conjectures (envA.worker initState.agent) envA.finalGoalsFormatted
            ++ initState.studentResultsFinal
          = prove_conjectures (envA.worker initState.agent) envA.finalGoalsFormatted :=
  ⟨rfl,
    (student_results_final_stays_empty cfgRolling envA 0 2 initState rfl).1,
    (student_results_final_stays_empty cfgRolling envA 0 2 initState rfl).2 initState rfl⟩

theorem early_exit_breaks_before_total_witness :
    cfgEarly.earlyExit = true
      ∧ cfgEarly.mctsOnly = false
      ∧ iterStep cfgEarly envA 0 initState ≠ none
      ∧ (runLoop cfgEarly envA 0 100 initState).2 = RunOutcome.broke 0 := by
  have hlen : ∀ a : Nat,
      ((get_val_loss (envA.evalWorker a) envA.finalGoalsFormatted).2).length
        = envA.finalGoalsFormatted.length := fun a => rfl
  have hle : ∀ a : Nat,
      ∀ s ∈ (get_val_loss (envA.evalWorker a) envA.finalGoalsFormatted).2,
        s ≤ cfgEarly.maxMctsNodes := by
    intro a s hs
    change s ∈ [1] at hs
    rw [List.mem_singleton] at hs
    subst hs
    decide
  have hnc : iterStep cfgEarly envA 0 initState ≠ none := by decide
  exact ⟨rfl, rfl, hnc,
    early_exit_breaks_before_total cfgEarly envA 0 99 initState rfl rfl hlen hle hnc⟩

end Bootstrap
